import Mathlib

/-!
Verification of `src/ocrmypdf/_concurrent.py`.

The module runs a batch of tasks on a pool of workers (threads or
processes), funnels worker log records through a queue to a single
listener thread, and reports progress as results arrive.  We give a
shallow embedding of each function as a pure Lean function:

* `log_listener` consumes a scripted stream of queue items (log records
  that handle cleanly, log records whose handling raises, or the `None`
  sentinel) and returns the events it emits together with whether the
  loop terminated (broke on the sentinel) or is still blocked in
  `q.get()`.
* `process_sigbus`, `process_init` and `thread_init` are worker
  initialization routines; we model the worker-visible state (signal
  dispositions, the signal mask, the root logger configuration, the
  user callback invocations) as a record `WorkerState` which the
  initializers transform, with a flag `hasSIGBUS` standing for Python's
  `hasattr(signal, 'SIGBUS')` platform check.
* `exec_progress_pool` is modelled as a trace of observable events.
  The result-pulling loop (`results.next()` on `imap_unordered`) is
  driven by a scripted schedule of pull outcomes: each pull either
  yields a result, raises `StopIteration` (all arguments consumed),
  raises `KeyboardInterrupt`, or raises another exception.  The model
  reproduces the source's `try/except KeyboardInterrupt/except
  Exception/finally` structure, the `with tqdm` block, and the final
  `listener.join()` which only runs when no exception propagates.
-/

namespace Concurrent

/-! ## Log listener (`log_listener`) -/

/-- An item dequeued from the log queue: either a log record named `name`
whose handling by `logging.getLogger(record.name).handle(record)` either
succeeds (`ok = true`) or raises (`ok = false`), or the `None` sentinel. -/
inductive QItem where
  | record (name : Nat) (ok : Bool)
  | sentinel
deriving DecidableEq, Repr

/-- Observable effect of the listener on one item: the record was handled
by its named logger, or a "Logging problem" diagnostic (with traceback)
was printed to `sys.stderr`. -/
inductive LogEvent where
  | handled (name : Nat)
  | diagnostic
deriving DecidableEq, Repr

/-- `log_listener(q)`: `while True: record = q.get(); if record is None:
break; logging.getLogger(record.name).handle(record)`, with any
`Exception` during handling caught, a diagnostic printed to stderr, and
the loop continued.  The input list is the stream of items the queue
delivers; the `Bool` is `true` when the loop terminated by dequeuing the
sentinel and `false` when the stream ran out with the listener still
blocked in `q.get()`. -/
def log_listener : List QItem → List LogEvent × Bool
  | [] => ([], false)
  | QItem.sentinel :: _ => ([], true)
  | QItem.record n true :: rest =>
      let p := log_listener rest
      (LogEvent.handled n :: p.1, p.2)
  | QItem.record _ false :: rest =>
      let p := log_listener rest
      (LogEvent.diagnostic :: p.1, p.2)

/-! ## Worker initializers (`process_sigbus`, `process_init`, `thread_init`) -/

/-- Domain errors from `ocrmypdf.exceptions` used by this module. -/
inductive OcrError where
  | inputFileError (msg : String)
deriving DecidableEq, Repr

/-- `process_sigbus(*args)`: unconditionally raises `InputFileError`. -/
def process_sigbus (_args : List Nat) : Except OcrError Unit :=
  Except.error (OcrError.inputFileError "A worker process lost access to an input file")

/-- A signal disposition as set by `signal.signal`. -/
inductive Handler where
  | dfl
  | SIG_IGN
  | processSigbusHandler
deriving DecidableEq, Repr

/-- A handler attached to the root logger: the `QueueHandler` forwarding
to the log queue identified by `q`, or any pre-existing handler. -/
inductive LogHandler where
  | queueHandler (q : Nat)
  | other (n : Nat)
deriving DecidableEq, Repr

/-- Worker-visible state touched by the initializers: the dispositions of
SIGINT and SIGBUS, whether SIGBUS is blocked in this thread's signal
mask (`pthread_sigmask`), the root logger's level and handler list, the
total number of times the user-supplied callback was invoked, and the
accumulated observable actions of those callbacks. -/
structure WorkerState where
  sigintHandler : Handler
  sigbusHandler : Handler
  sigbusBlocked : Bool
  rootLevel : Int
  rootHandlers : List LogHandler
  userInitCalls : Nat
  userActions : List Nat
deriving DecidableEq, Repr

/-- `process_init(q, user_init, loglevel)`: ignore SIGINT; if the
platform has SIGBUS, install `process_sigbus` as its handler; set the
root logger to `loglevel`, clear its handlers and add a single
`QueueHandler(q)`; then call `user_init()`.  The user callback is
modelled by the list of its observable actions. -/
def process_init (q : Nat) (user_init : List Nat) (loglevel : Int)
    (hasSIGBUS : Bool) (s : WorkerState) : WorkerState :=
  let s1 := { s with sigintHandler := Handler.SIG_IGN }
  let s2 := if hasSIGBUS then { s1 with sigbusHandler := Handler.processSigbusHandler } else s1
  let s3 := { s2 with rootLevel := loglevel, rootHandlers := [LogHandler.queueHandler q] }
  { s3 with userInitCalls := s3.userInitCalls + 1, userActions := s3.userActions ++ user_init }

/-- `thread_init(_queue, user_init, _loglevel)`: if the platform has
SIGBUS, block it in this thread's signal mask (`pthread_sigmask`
with `SIG_BLOCK`); then call `user_init()`.  The queue and log level
arguments are ignored by the source. -/
def thread_init (_q : Nat) (user_init : List Nat) (_loglevel : Int)
    (hasSIGBUS : Bool) (s : WorkerState) : WorkerState :=
  let s1 := if hasSIGBUS then { s with sigbusBlocked := true } else s
  { s1 with userInitCalls := s1.userInitCalls + 1, userActions := s1.userActions ++ user_init }

/-! ## Pool dispatcher (`exec_progress_pool`) -/

/-- Observable events of one `exec_progress_pool` invocation, in program
order. `poolCreate` records the worker kind, the effective per-worker
user callback passed in `initargs` (the caller's, or the substituted
no-op `[]`), and the root log level passed in `initargs`. -/
inductive Event where
  | listenerStart
  | pbarEnter
  | poolCreate (useThreads : Bool) (userInit : List Nat) (loglevel : Int)
  | taskFinishedCall (r : Nat)
  | pbarUpdate
  | poolTerminate
  | sentinelPut
  | poolClose
  | poolJoin
  | pbarExit
  | listenerJoin
deriving DecidableEq, Repr

/-- Outcome of one `results.next()` call on the `imap_unordered`
iterator: a completed task's result, `StopIteration` (all task arguments
consumed), `KeyboardInterrupt` delivered to the dispatcher, or any other
exception (a task raised). -/
inductive PullOutcome where
  | yield (r : Nat)
  | stopIteration
  | keyboardInterrupt
  | exn
deriving DecidableEq, Repr

/-- How the `while True` result loop was left. `blocked` means the
schedule ran out: the real dispatcher would still be blocked inside
`results.next()` waiting on a task that never finishes. -/
inductive LoopExit where
  | stopped
  | interrupted
  | failed
  | blocked
deriving DecidableEq, Repr

/-- How the whole call ends: normal return, `KeyboardInterrupt`
re-raised, a task exception re-raised, or blocked forever. -/
inductive Outcome where
  | normal
  | interrupted
  | failed
  | blocked
deriving DecidableEq, Repr

/-- The `while True` loop: pull the next result; on a yield, call
`task_finished(result, pbar)` when a completion callback was supplied,
else `pbar.update()`; `StopIteration` breaks out of the loop; the other
exceptions propagate to the enclosing `try`. -/
def runLoop (hasCb : Bool) : List PullOutcome → List Event × LoopExit
  | [] => ([], LoopExit.blocked)
  | PullOutcome.yield r :: rest =>
      let p := runLoop hasCb rest
      ((if hasCb then Event.taskFinishedCall r else Event.pbarUpdate) :: p.1, p.2)
  | PullOutcome.stopIteration :: _ => ([], LoopExit.stopped)
  | PullOutcome.keyboardInterrupt :: _ => ([], LoopExit.interrupted)
  | PullOutcome.exn :: _ => ([], LoopExit.failed)

/-- Events after the loop: the `except KeyboardInterrupt` handler calls
`pool.terminate()` and re-raises; the `except Exception` handler calls
`pool.terminate()` only when `PYTEST_CURRENT_TEST` is unset and
re-raises; the `finally` always runs `log_queue.put_nowait(None)`,
`pool.close()`, `pool.join()`; the `with tqdm` block then closes the
progress bar; `listener.join()` runs only when no exception is
propagating out of the `with` block. -/
def teardownEvents (ex : LoopExit) (pytestEnv : Bool) : List Event :=
  match ex with
  | LoopExit.blocked => []
  | LoopExit.stopped =>
      [Event.sentinelPut, Event.poolClose, Event.poolJoin, Event.pbarExit,
       Event.listenerJoin]
  | LoopExit.interrupted =>
      [Event.poolTerminate, Event.sentinelPut, Event.poolClose, Event.poolJoin,
       Event.pbarExit]
  | LoopExit.failed =>
      (if pytestEnv then [] else [Event.poolTerminate])
        ++ [Event.sentinelPut, Event.poolClose, Event.poolJoin, Event.pbarExit]

/-- The call's outcome for each way the loop was left. -/
def outcomeOf : LoopExit → Outcome
  | LoopExit.stopped => Outcome.normal
  | LoopExit.interrupted => Outcome.interrupted
  | LoopExit.failed => Outcome.failed
  | LoopExit.blocked => Outcome.blocked

/-- `exec_progress_pool`: choose the pool class and per-worker init by
`use_threads`; substitute a no-op for a missing `task_initializer`
(`if not task_initializer: task_initializer = _noop`, modelled as
`Option.getD` with the empty action list); start the listener thread;
enter `with tqdm`; create the pool with
`initargs = (log_queue, task_initializer, logging.getLogger("").level)`;
run the result loop; then the except/finally/with-exit/`listener.join()`
sequence.  Returns the full event trace and the outcome. -/
def exec_progress_pool (useThreads : Bool) (taskInitCb : Option (List Nat))
    (hasCb : Bool) (pytestEnv : Bool) (rootLevel : Int)
    (pulls : List PullOutcome) : List Event × Outcome :=
  ([Event.listenerStart, Event.pbarEnter,
      Event.poolCreate useThreads (taskInitCb.getD []) rootLevel]
      ++ (runLoop hasCb pulls).1
      ++ teardownEvents (runLoop hasCb pulls).2 pytestEnv,
   outcomeOf (runLoop hasCb pulls).2)

/-! ## Helper lemmas -/

/-- Pulling a block of results emits one completion event per result and
then continues with the rest of the schedule. -/
theorem runLoop_yield_append (hasCb : Bool) (rs : List Nat) (rest : List PullOutcome) :
    runLoop hasCb (rs.map PullOutcome.yield ++ rest) =
      (rs.map (fun r => if hasCb then Event.taskFinishedCall r else Event.pbarUpdate)
         ++ (runLoop hasCb rest).1,
       (runLoop hasCb rest).2) := by
  induction rs with
  | nil => simp [runLoop]
  | cons r rs ih => simp [runLoop, ih]

/-- The result loop emits only completion events (callback invocations or
progress ticks); no lifecycle event comes from the loop itself. -/
theorem runLoop_not_mem (hasCb : Bool) (pulls : List PullOutcome) (e : Event)
    (h1 : ∀ r, e ≠ Event.taskFinishedCall r) (h2 : e ≠ Event.pbarUpdate) :
    e ∉ (runLoop hasCb pulls).1 := by
  induction pulls with
  | nil => simp [runLoop]
  | cons hd tl ih =>
      cases hd with
      | yield r =>
          intro hmem
          simp only [runLoop, List.mem_cons] at hmem
          rcases hmem with h | h
          · by_cases hb : hasCb
            · rw [if_pos hb] at h; exact h1 r h
            · rw [if_neg hb] at h; exact h2 h
          · exact ih h
      | stopIteration => simp [runLoop]
      | keyboardInterrupt => simp [runLoop]
      | exn => simp [runLoop]

/-- The listener's behavior is fully determined by the stream up to and
including the first sentinel: items after a sentinel are never read. -/
theorem listener_stops_at_sentinel (pre post : List QItem) :
    log_listener (pre ++ QItem.sentinel :: post) = log_listener (pre ++ [QItem.sentinel]) := by
  induction pre with
  | nil => simp [log_listener]
  | cons hd tl ih =>
      cases hd with
      | sentinel => simp [log_listener]
      | record n ok => cases ok <;> simp [log_listener, ih]

/-- Every teardown sequence contains at most one sentinel enqueue. -/
theorem teardown_sentinel_count (ex : LoopExit) (env : Bool) :
    (teardownEvents ex env).count Event.sentinelPut ≤ 1 := by
  cases ex <;> cases env <;> decide

/-! ## Claims -/

/-- Claim C1, as stated, is false: on the user-interrupt exit path the
exception propagates out of the function before the final
`listener.join()` line, so the Log Aggregator thread is not joined even
though the sentinel, `pool.close()` and `pool.join()` all ran. -/
theorem claim1_counterexample :
    (exec_progress_pool false none false false 0 [PullOutcome.keyboardInterrupt]).2
        = Outcome.interrupted
      ∧ Event.sentinelPut
          ∈ (exec_progress_pool false none false false 0 [PullOutcome.keyboardInterrupt]).1
      ∧ Event.listenerJoin
          ∉ (exec_progress_pool false none false false 0 [PullOutcome.keyboardInterrupt]).1 := by
  decide

/-- Claim C1 (amended): on every exit path of `exec_progress_pool` that
is not blocked inside `results.next()`, the termination sentinel is sent
to the log queue, the pool is closed and the workers are joined; the
Log Aggregator (listener) thread, however, is joined exactly on the
normal-return path — on interrupt or task-exception exits the exception
propagates before `listener.join()` is reached. -/
theorem claim1_teardown_amended (useThreads : Bool) (ti : Option (List Nat))
    (hasCb pytestEnv : Bool) (lvl : Int) (pulls : List PullOutcome)
    (h : (exec_progress_pool useThreads ti hasCb pytestEnv lvl pulls).2 ≠ Outcome.blocked) :
    Event.sentinelPut ∈ (exec_progress_pool useThreads ti hasCb pytestEnv lvl pulls).1
  ∧ Event.poolClose ∈ (exec_progress_pool useThreads ti hasCb pytestEnv lvl pulls).1
  ∧ Event.poolJoin ∈ (exec_progress_pool useThreads ti hasCb pytestEnv lvl pulls).1
  ∧ (Event.listenerJoin ∈ (exec_progress_pool useThreads ti hasCb pytestEnv lvl pulls).1
      ↔ (exec_progress_pool useThreads ti hasCb pytestEnv lvl pulls).2 = Outcome.normal) := by
  have hlj : Event.listenerJoin ∉ (runLoop hasCb pulls).1 :=
    runLoop_not_mem hasCb pulls Event.listenerJoin
      (by intro r hr; cases hr) (by intro hr; cases hr)
  cases hex : (runLoop hasCb pulls).2 with
  | blocked => exact absurd (by simp [exec_progress_pool, hex, outcomeOf]) h
  | stopped => simp [exec_progress_pool, hex, teardownEvents, outcomeOf]
  | interrupted => simp [exec_progress_pool, hex, teardownEvents, outcomeOf, hlj]
  | failed =>
      cases pytestEnv <;>
        simp [exec_progress_pool, hex, teardownEvents, outcomeOf, hlj]

/-- Witness for the amended C1 at a concrete schedule. -/
theorem claim1_teardown_witness :
    (exec_progress_pool false none false false 0 [PullOutcome.stopIteration]).2
        ≠ Outcome.blocked
  ∧ (Event.sentinelPut
        ∈ (exec_progress_pool false none false false 0 [PullOutcome.stopIteration]).1
     ∧ Event.poolClose
        ∈ (exec_progress_pool false none false false 0 [PullOutcome.stopIteration]).1
     ∧ Event.poolJoin
        ∈ (exec_progress_pool false none false false 0 [PullOutcome.stopIteration]).1
     ∧ (Event.listenerJoin
          ∈ (exec_progress_pool false none false false 0 [PullOutcome.stopIteration]).1
        ↔ (exec_progress_pool false none false false 0 [PullOutcome.stopIteration]).2
            = Outcome.normal)) :=
  ⟨by decide, claim1_teardown_amended false none false false 0 [PullOutcome.stopIteration]
      (by decide)⟩

/-- Claim C2: for a schedule of N task results followed by exhaustion
(`StopIteration`), the dispatcher emits exactly one completion event per
result — the completion callback on the result when supplied, else one
progress tick — runs the full teardown including `listener.join()`, and
returns normally. -/
theorem claim2_n_results (useThreads : Bool) (ti : Option (List Nat))
    (hasCb pytestEnv : Bool) (lvl : Int) (rs : List Nat) :
    exec_progress_pool useThreads ti hasCb pytestEnv lvl
        (rs.map PullOutcome.yield ++ [PullOutcome.stopIteration]) =
      ([Event.listenerStart, Event.pbarEnter,
          Event.poolCreate useThreads (ti.getD []) lvl]
         ++ rs.map (fun r => if hasCb then Event.taskFinishedCall r else Event.pbarUpdate)
         ++ [Event.sentinelPut, Event.poolClose, Event.poolJoin, Event.pbarExit,
             Event.listenerJoin],
       Outcome.normal) := by
  simp [exec_progress_pool, runLoop_yield_append, runLoop, teardownEvents, outcomeOf]

/-- Claim C3: the listener terminates exactly when it dequeues the
sentinel; a record whose handling raises produces a diagnostic on the
error stream and the loop continues identically; a record that handles
cleanly is dispatched to its named logger and the loop continues. -/
theorem claim3_listener_loop :
    (∀ xs : List QItem, (log_listener xs).2 = true ↔ QItem.sentinel ∈ xs)
  ∧ (∀ (n : Nat) (xs : List QItem),
      log_listener (QItem.record n false :: xs) =
        (LogEvent.diagnostic :: (log_listener xs).1, (log_listener xs).2))
  ∧ (∀ (n : Nat) (xs : List QItem),
      log_listener (QItem.record n true :: xs) =
        (LogEvent.handled n :: (log_listener xs).1, (log_listener xs).2)) := by
  refine ⟨?_, ?_, ?_⟩
  · intro xs
    induction xs with
    | nil => simp [log_listener]
    | cons hd tl ih =>
        cases hd with
        | sentinel => simp [log_listener]
        | record n ok => cases ok <;> simp [log_listener, ih]
  · intro n xs; simp [log_listener]
  · intro n xs; simp [log_listener]

/-- Claim C4: when a `KeyboardInterrupt` arrives while pulling results,
the pool is terminated immediately — before `pool.close()`/`pool.join()`
and with no further completion events — and the interrupt is re-raised
(`Outcome.interrupted`); the listener is not joined on this path. -/
theorem claim4_interrupt (useThreads : Bool) (ti : Option (List Nat))
    (hasCb pytestEnv : Bool) (lvl : Int) (rs : List Nat) (rest : List PullOutcome) :
    exec_progress_pool useThreads ti hasCb pytestEnv lvl
        (rs.map PullOutcome.yield ++ PullOutcome.keyboardInterrupt :: rest) =
      ([Event.listenerStart, Event.pbarEnter,
          Event.poolCreate useThreads (ti.getD []) lvl]
         ++ rs.map (fun r => if hasCb then Event.taskFinishedCall r else Event.pbarUpdate)
         ++ [Event.poolTerminate, Event.sentinelPut, Event.poolClose, Event.poolJoin,
             Event.pbarExit],
       Outcome.interrupted) := by
  simp [exec_progress_pool, runLoop_yield_append, runLoop, teardownEvents, outcomeOf]

/-- Claim C5, as stated, is false: with every caller-supplied argument
held fixed, whether the pool is terminated on a task exception flips
with the `PYTEST_CURRENT_TEST` environment variable — the drain decision
is environment detection, not a policy the caller passes in. -/
theorem claim5_counterexample :
    Event.poolTerminate
        ∈ (exec_progress_pool false none false false 0 [PullOutcome.exn]).1
  ∧ Event.poolTerminate
        ∉ (exec_progress_pool false none false true 0 [PullOutcome.exn]).1 := by
  decide

/-- Claim C5 (amended): when a task raises an exception other than an
interrupt, `exec_progress_pool` terminates the pool unless the
`PYTEST_CURRENT_TEST` environment variable is set (graceful drain for
test harnesses), then always runs the sentinel/close/join teardown and
re-raises the failure (`Outcome.failed`). -/
theorem claim5_drain_amended (useThreads : Bool) (ti : Option (List Nat))
    (hasCb pytestEnv : Bool) (lvl : Int) (rs : List Nat) (rest : List PullOutcome) :
    exec_progress_pool useThreads ti hasCb pytestEnv lvl
        (rs.map PullOutcome.yield ++ PullOutcome.exn :: rest) =
      ([Event.listenerStart, Event.pbarEnter,
          Event.poolCreate useThreads (ti.getD []) lvl]
         ++ rs.map (fun r => if hasCb then Event.taskFinishedCall r else Event.pbarUpdate)
         ++ (if pytestEnv then [] else [Event.poolTerminate])
         ++ [Event.sentinelPut, Event.poolClose, Event.poolJoin, Event.pbarExit],
       Outcome.failed) := by
  simp [exec_progress_pool, runLoop_yield_append, runLoop, teardownEvents, outcomeOf]

/-- Claim C6: on a platform with SIGBUS, `process_init` ignores SIGINT,
installs `process_sigbus` — which raises `InputFileError` — as the
SIGBUS handler, replaces the root logger's handlers with the single
queue-forwarding handler at the dispatcher's log level, and invokes the
caller-supplied setup callback once. -/
theorem claim6_process_init_spec (q : Nat) (u : List Nat) (lvl : Int) (s : WorkerState) :
    (process_init q u lvl true s).sigintHandler = Handler.SIG_IGN
  ∧ (process_init q u lvl true s).sigbusHandler = Handler.processSigbusHandler
  ∧ (∀ args : List Nat, process_sigbus args =
      Except.error (OcrError.inputFileError "A worker process lost access to an input file"))
  ∧ (process_init q u lvl true s).rootHandlers = [LogHandler.queueHandler q]
  ∧ (process_init q u lvl true s).rootLevel = lvl
  ∧ (process_init q u lvl true s).userInitCalls = s.userInitCalls + 1
  ∧ (process_init q u lvl true s).userActions = s.userActions ++ u := by
  simp [process_init, process_sigbus]

/-- Claim C7: on a platform with SIGBUS, `thread_init` blocks SIGBUS in
this thread's signal mask, leaves the signal dispositions and the root
logger configuration untouched (no logging redirection), and invokes the
caller-supplied setup callback once. -/
theorem claim7_thread_init_spec (q : Nat) (u : List Nat) (lvl : Int) (s : WorkerState) :
    (thread_init q u lvl true s).sigbusBlocked = true
  ∧ (thread_init q u lvl true s).sigintHandler = s.sigintHandler
  ∧ (thread_init q u lvl true s).sigbusHandler = s.sigbusHandler
  ∧ (thread_init q u lvl true s).rootLevel = s.rootLevel
  ∧ (thread_init q u lvl true s).rootHandlers = s.rootHandlers
  ∧ (thread_init q u lvl true s).userInitCalls = s.userInitCalls + 1
  ∧ (thread_init q u lvl true s).userActions = s.userActions ++ u := by
  simp [thread_init]

/-- Claim C8: every `exec_progress_pool` trace enqueues the sentinel at
most once, and the listener's output is unchanged by anything enqueued
strictly after a sentinel — once the sentinel is consumed no further
item is ever read. -/
theorem claim8_sentinel_once (useThreads : Bool) (ti : Option (List Nat))
    (hasCb pytestEnv : Bool) (lvl : Int) (pulls : List PullOutcome)
    (pre post : List QItem) :
    (exec_progress_pool useThreads ti hasCb pytestEnv lvl pulls).1.count Event.sentinelPut ≤ 1
  ∧ log_listener (pre ++ QItem.sentinel :: post)
      = log_listener (pre ++ [QItem.sentinel]) := by
  refine ⟨?_, listener_stops_at_sentinel pre post⟩
  have hs : Event.sentinelPut ∉ (runLoop hasCb pulls).1 :=
    runLoop_not_mem hasCb pulls Event.sentinelPut
      (by intro r hr; cases hr) (by intro hr; cases hr)
  have hloop : (runLoop hasCb pulls).1.count Event.sentinelPut = 0 :=
    List.count_eq_zero.mpr hs
  have htd := teardown_sentinel_count ((runLoop hasCb pulls).2) pytestEnv
  simp [exec_progress_pool, List.count_append, hloop, List.count_cons]
  omega

/-- Claim C9: on every non-blocked exit path the sentinel enqueue
strictly precedes `pool.join()` — the trace splits as
`l1 ++ sentinelPut :: l2` with the join in `l2` and neither event in
`l1` — so the listener may stop while workers still run. -/
theorem claim9_sentinel_before_join (useThreads : Bool) (ti : Option (List Nat))
    (hasCb pytestEnv : Bool) (lvl : Int) (pulls : List PullOutcome)
    (h : (exec_progress_pool useThreads ti hasCb pytestEnv lvl pulls).2 ≠ Outcome.blocked) :
    ∃ l1 l2,
      (exec_progress_pool useThreads ti hasCb pytestEnv lvl pulls).1
          = l1 ++ Event.sentinelPut :: l2
        ∧ Event.sentinelPut ∉ l1 ∧ Event.poolJoin ∉ l1 ∧ Event.poolJoin ∈ l2 := by
  have hs : Event.sentinelPut ∉ (runLoop hasCb pulls).1 :=
    runLoop_not_mem hasCb pulls Event.sentinelPut
      (by intro r hr; cases hr) (by intro hr; cases hr)
  have hj : Event.poolJoin ∉ (runLoop hasCb pulls).1 :=
    runLoop_not_mem hasCb pulls Event.poolJoin
      (by intro r hr; cases hr) (by intro hr; cases hr)
  cases hex : (runLoop hasCb pulls).2 with
  | blocked => exact absurd (by simp [exec_progress_pool, hex, outcomeOf]) h
  | stopped =>
      refine ⟨[Event.listenerStart, Event.pbarEnter,
                Event.poolCreate useThreads (ti.getD []) lvl] ++ (runLoop hasCb pulls).1,
              [Event.poolClose, Event.poolJoin, Event.pbarExit, Event.listenerJoin],
              ?_, ?_, ?_, ?_⟩
      · simp [exec_progress_pool, hex, teardownEvents]
      · simp [hs]
      · simp [hj]
      · simp
  | interrupted =>
      refine ⟨[Event.listenerStart, Event.pbarEnter,
                Event.poolCreate useThreads (ti.getD []) lvl] ++ (runLoop hasCb pulls).1
                ++ [Event.poolTerminate],
              [Event.poolClose, Event.poolJoin, Event.pbarExit], ?_, ?_, ?_, ?_⟩
      · simp [exec_progress_pool, hex, teardownEvents]
      · simp [hs]
      · simp [hj]
      · simp
  | failed =>
      refine ⟨[Event.listenerStart, Event.pbarEnter,
                Event.poolCreate useThreads (ti.getD []) lvl] ++ (runLoop hasCb pulls).1
                ++ (if pytestEnv then [] else [Event.poolTerminate]),
              [Event.poolClose, Event.poolJoin, Event.pbarExit], ?_, ?_, ?_, ?_⟩
      · cases pytestEnv <;> simp [exec_progress_pool, hex, teardownEvents]
      · cases pytestEnv <;> simp [hs]
      · cases pytestEnv <;> simp [hj]
      · simp

/-- Witness for C9 at a concrete schedule. -/
theorem claim9_witness :
    (exec_progress_pool false none false false 0 [PullOutcome.stopIteration]).2
        ≠ Outcome.blocked
  ∧ ∃ l1 l2,
      (exec_progress_pool false none false false 0 [PullOutcome.stopIteration]).1
          = l1 ++ Event.sentinelPut :: l2
        ∧ Event.sentinelPut ∉ l1 ∧ Event.poolJoin ∉ l1 ∧ Event.poolJoin ∈ l2 :=
  ⟨by decide, claim9_sentinel_before_join false none false false 0
      [PullOutcome.stopIteration] (by decide)⟩

/-- Claim C10: when no per-worker setup callback is supplied the no-op
(empty action list) is passed to the pool's `initargs`, and both
initializer variants still perform their full signal and logging setup
with the no-op contributing no user actions. -/
theorem claim10_noop_callback (useThreads : Bool) (hasCb pytestEnv : Bool)
    (lvl : Int) (pulls : List PullOutcome) (q : Nat) (s : WorkerState) :
    Event.poolCreate useThreads [] lvl
        ∈ (exec_progress_pool useThreads none hasCb pytestEnv lvl pulls).1
  ∧ (process_init q [] lvl true s).sigintHandler = Handler.SIG_IGN
  ∧ (process_init q [] lvl true s).sigbusHandler = Handler.processSigbusHandler
  ∧ (process_init q [] lvl true s).rootHandlers = [LogHandler.queueHandler q]
  ∧ (process_init q [] lvl true s).rootLevel = lvl
  ∧ (process_init q [] lvl true s).userActions = s.userActions
  ∧ (thread_init q [] lvl true s).sigbusBlocked = true
  ∧ (thread_init q [] lvl true s).userActions = s.userActions := by
  refine ⟨?_, ?_⟩
  · simp [exec_progress_pool]
  · simp [process_init, thread_init]

end Concurrent
